import Mathlib

/-!
Verification of `pkg/github/issues.go` of grafana/grafana-github-datasource.

The file shallowly embeds the two operations of that source file:

* `Issues.Frames` — conversion of a list of GitHub issues into a single
  fixed-schema columnar data frame (`func (c Issues) Frames() data.Frames`);
* `GetIssuesInRange` — the search-filter construction and the cursor-driven
  pagination loop (`func GetIssuesInRange(...) (Issues, error)`).

The GraphQL transport (`client.Query`) is an external collaborator; it is
modelled as a pre-recorded list of responses consumed one per call, each
response being either an error or a decoded search page.  Timestamps
(`time.Time` / `githubv4.DateTime`) are modelled as UTC instants: seconds
since January 1 of year 1 (Go's zero time) plus nanoseconds, which is how
Go's `IsZero` and RFC3339 formatting observe them.
-/

/-- Model of Go `time.Time` (and of `githubv4.DateTime`, which merely wraps
it): a UTC instant given as seconds since the Go zero time
(January 1, year 1, 00:00:00 UTC) plus a nanosecond part.  Locations other
than UTC are not modelled: the repository only formats and zero-tests
times. -/
structure GoTime where
  sec : Int
  nsec : Nat
  deriving DecidableEq, Repr

/-- Go `time.Time.IsZero`: true exactly on the zero instant
(second and nanosecond parts both zero). -/
def GoTime.isZero (t : GoTime) : Bool :=
  t.sec == 0 && t.nsec == 0

/-- Left-pad the decimal rendering of `n` with zeros to width `w`
(Go's fixed-width date/time components). -/
def padZero (w : Nat) (n : Nat) : String :=
  let s := toString n
  if s.length < w then String.mk (List.replicate (w - s.length) '0') ++ s else s

/-- Civil date from a day count relative to 1970-01-01 (proleptic Gregorian
calendar, Howard Hinnant's algorithm): returns (year, month, day). -/
def civilFromDays (z : Int) : Int × Nat × Nat :=
  let z := z + 719468
  let era : Int := z.fdiv 146097
  let doe : Nat := (z - era * 146097).toNat
  let yoe : Nat := (doe - doe / 1460 + doe / 36524 - doe / 146096) / 365
  let doy : Nat := doe - (365 * yoe + yoe / 4 - yoe / 100)
  let mp : Nat := (5 * doy + 2) / 153
  let d : Nat := doy - (153 * mp + 2) / 5 + 1
  let m : Nat := if mp < 10 then mp + 3 else mp - 9
  let y : Int := (yoe : Int) + era * 400 + (if m ≤ 2 then 1 else 0)
  (y, m, d)

/-- Number of days from 0001-01-01 (the Go zero date) to 1970-01-01. -/
def daysToUnixEpoch : Int := 719162

/-- Go `t.Format(time.RFC3339)` for a UTC instant: layout
`2006-01-02T15:04:05Z07:00`, which for UTC renders as
`YYYY-MM-DDTHH:MM:SSZ` with no fractional seconds. -/
def GoTime.formatRFC3339 (t : GoTime) : String :=
  let days := t.sec.fdiv 86400
  let sod := (t.sec - days * 86400).toNat
  let (y, mo, d) := civilFromDays (days - daysToUnixEpoch)
  padZero 4 y.toNat ++ "-" ++ padZero 2 mo ++ "-" ++ padZero 2 d ++ "T" ++
    padZero 2 (sod / 3600) ++ ":" ++ padZero 2 ((sod / 60) % 60) ++ ":" ++
    padZero 2 (sod % 60) ++ "Z"

/-- Modelled from the repository outside the given source file: the `User`
struct referenced by `Issue.Author` (spec §3: author has a login and a
company; the frame stores both in plain string columns, so the company is a
string here, possibly empty). -/
structure User where
  login : String
  company : String
  deriving DecidableEq, Repr

/-- Modelled from the repository outside the given source file: the owner
part of a `Repository` (spec §3: `repository: {ownerLogin, name}`). -/
structure RepositoryOwner where
  login : String
  deriving DecidableEq, Repr

/-- Modelled from the repository outside the given source file: the
`Repository` struct used by `Issue.Repository`; `Frames` reads
`Owner.Login` and `Name`. -/
structure Repository where
  owner : RepositoryOwner
  name : String
  deriving DecidableEq, Repr

/-- The `Issue` struct of `issues.go`.  Go's anonymous
`Author struct { User }` embedding is flattened to a `User` field: the code
only ever reads `v.Author.User.Login` and `v.Author.User.Company`. -/
structure Issue where
  number : Int
  title : String
  closedAt : GoTime
  createdAt : GoTime
  closed : Bool
  author : User
  repository : Repository
  deriving DecidableEq, Repr

/-- `type Issues []Issue`. -/
abbrev Issues := List Issue

/-- The Go zero value of `Issue`: what the GraphQL decoder leaves in the
`... on Issue` inline-fragment struct when a search node is not an issue. -/
def defaultIssue : Issue :=
  { number := 0
    title := ""
    closedAt := ⟨0, 0⟩
    createdAt := ⟨0, 0⟩
    closed := false
    author := ⟨"", ""⟩
    repository := ⟨⟨""⟩, ""⟩ }

/-- A single cell of a data frame, tagged with the column type used in
`Frames`: `[]string`, `[]int64`, `[]bool`, `[]time.Time` or
`[]*time.Time`. -/
inductive CellValue where
  | str (s : String)
  | int (i : Int)
  | bool (b : Bool)
  | time (t : GoTime)
  | optTime (t : Option GoTime)
  deriving DecidableEq, Repr

/-- `data.Field`: a named column holding a vector of values
(`data.NewField(name, nil, values)`).  Named `DataField` here because Lean's
library already uses the name `Field`. -/
structure DataField where
  name : String
  values : List CellValue
  deriving DecidableEq, Repr

/-- `data.Frame`: a named frame holding an ordered list of fields
(`data.NewFrame(name, fields...)`). -/
structure Frame where
  name : String
  fields : List DataField
  deriving DecidableEq, Repr

/-- `frame.AppendRow(vals...)`: append the i-th value to the i-th field.
The source always passes exactly one value per field. -/
def Frame.appendRow (f : Frame) (vals : List CellValue) : Frame :=
  { f with fields := List.zipWith (fun fld v => { fld with values := fld.values ++ [v] }) f.fields vals }

/-- The empty frame built by the `data.NewFrame("issues", ...)` call at the
top of `Frames`: eight empty fields in the source's fixed order. -/
def newIssuesFrame : Frame :=
  { name := "issues"
    fields :=
      [⟨"title", []⟩, ⟨"author", []⟩, ⟨"author_company", []⟩, ⟨"repo", []⟩,
       ⟨"number", []⟩, ⟨"closed", []⟩, ⟨"created_at", []⟩, ⟨"closed_at", []⟩] }

/-- The row of cells passed to `frame.AppendRow` for one issue `v`:
title, author login, author company, `fmt.Sprintf("%s/%s", owner, name)`,
number, closed flag, creation time, and the closed-at pointer cell, which
is nil when `v.ClosedAt.Time.IsZero()` and `&v.ClosedAt.Time` otherwise. -/
def issueRow (v : Issue) : List CellValue :=
  [CellValue.str v.title,
   CellValue.str v.author.login,
   CellValue.str v.author.company,
   CellValue.str (v.repository.owner.login ++ "/" ++ v.repository.name),
   CellValue.int v.number,
   CellValue.bool v.closed,
   CellValue.time v.createdAt,
   CellValue.optTime (if v.closedAt.isZero then none else some v.closedAt)]

/-- `func (c Issues) Frames() data.Frames`: build the empty eight-field
frame, append one row per issue in input order, and return a one-element
frame list. -/
def Issues.Frames (c : Issues) : List Frame :=
  [c.foldl (fun f v => f.appendRow (issueRow v)) newIssuesFrame]

/-- Modelled from the repository outside the given source file: the
`PageInfo` struct consumed by the pagination loop (spec §3:
`{hasNextPage: bool, endCursor: opaque string}`). -/
structure PageInfo where
  hasNextPage : Bool
  endCursor : String
  deriving DecidableEq, Repr

/-- One decoded page of the `QuerySearchIssues` GraphQL result.  A node of
`Search.Nodes` is the union struct `{ Issue Issue `... on Issue` }`:
`some i` models a node whose issue-typed branch matched (payload `i`),
`none` a node with no issue-typed payload, which the decoder leaves at the
zero value `defaultIssue`. -/
structure SearchPage where
  nodes : List (Option Issue)
  pageInfo : PageInfo
  deriving DecidableEq, Repr

/-- Modelled from the repository outside the given source file:
`models.ListIssuesOptions` (spec §3 ListOptions: owner, repository,
time-field selector, optional free-text query).  The time-field enum is
represented by its rendered name — the source only uses
`opts.TimeField.String()`. -/
structure ListIssuesOptions where
  owner : String
  repository : String
  timeField : String
  query : Option String
  deriving DecidableEq, Repr

/-- The search-filter construction at the top of `GetIssuesInRange`:
the three fixed tokens (`"is:issue"`, `fmt.Sprintf("repo:%s/%s", ...)`,
`fmt.Sprintf("%s:%s..%s", ...)`), the optional free-text query appended,
then `strings.Join(search, " ")`. -/
def buildSearchFilter (opts : ListIssuesOptions) (fromT toT : GoTime) : String :=
  let search := ["is:issue",
    "repo:" ++ opts.owner ++ "/" ++ opts.repository,
    opts.timeField ++ ":" ++ fromT.formatRFC3339 ++ ".." ++ toT.formatRFC3339]
  let search := match opts.query with
    | some q => search ++ [q]
    | none => search
  String.intercalate " " search

/-- The `variables` map passed to `client.Query`: it holds exactly the keys
`"cursor"` (the null sentinel `(*githubv4.String)(nil)` modelled as `none`,
a `githubv4.String` cursor as `some`) and `"query"` (the filter string). -/
structure SearchVariables where
  cursor : Option String
  query : String
  deriving DecidableEq, Repr

/-- One transport response: `client.Query` either returns an error or fills
the query template with a page. -/
abbrev QueryResponse := Except String SearchPage

/-- Result of running `GetIssuesInRange` against a recorded transport:
`ok` is the `(issues, nil)` return, `err` the `(nil, errors.WithStack(err))`
return — `errors.WithStack` preserves the wrapped error value, here carried
as-is, and the nil issue slice is modelled by `err` carrying no list.
`outOfResponses` marks executions where the recording has fewer responses
than the loop requests; such executions are outside the model. -/
inductive FetchOutcome where
  | ok (issues : List Issue)
  | err (e : String)
  | outOfResponses
  deriving DecidableEq, Repr

/-- The `for { ... }` pagination loop of `GetIssuesInRange`, instrumented
with the list of `variables` values passed to the successive `client.Query`
calls.  Each iteration consumes one recorded response: on error it returns
`(nil, errors.WithStack(err))`; on success it maps every node to its
issue-typed field (zero value when absent), appends the page's issues, and
either breaks (`hasNextPage` false) or continues with
`variables["cursor"] = q.Search.PageInfo.EndCursor`. -/
def queryLoop (query : String) (cursor : Option String)
    (responses : List QueryResponse) : List SearchVariables × FetchOutcome :=
  match responses with
  | [] => ([], FetchOutcome.outOfResponses)
  | r :: rest =>
    let vars : SearchVariables := ⟨cursor, query⟩
    match r with
    | Except.error e => ([vars], FetchOutcome.err e)
    | Except.ok page =>
      let is : List Issue := page.nodes.map (fun n => n.getD defaultIssue)
      if page.pageInfo.hasNextPage then
        let res := queryLoop query (some page.pageInfo.endCursor) rest
        (vars :: res.1,
          match res.2 with
          | FetchOutcome.ok more => FetchOutcome.ok (is ++ more)
          | o => o)
      else ([vars], FetchOutcome.ok is)

/-- `func GetIssuesInRange(ctx, client, opts, from, to) (Issues, error)`:
build the search filter, initialize `variables` with the null cursor, and
run the pagination loop against the recorded transport responses.  The
first component is the instrumentation (the `variables` value at each
transport call), the second the Go return value. -/
def GetIssuesInRange (opts : ListIssuesOptions) (fromT toT : GoTime)
    (responses : List QueryResponse) : List SearchVariables × FetchOutcome :=
  queryLoop (buildSearchFilter opts fromT toT) none responses

/-- The issues extracted from one page: one entry per node, the issue-typed
payload where present and the zero value where not. -/
def pageIssues (p : SearchPage) : List Issue :=
  p.nodes.map (fun n => n.getD defaultIssue)

/-- The cell stored in the `closed_at` column for one issue: nil unless the
closed-at time is non-zero. -/
def closedAtCell (v : Issue) : CellValue :=
  CellValue.optTime (if v.closedAt.isZero then none else some v.closedAt)

/-- Column-wise characterization of the frame `Frames` builds: each of the
eight columns is the in-order map of one per-issue projection. -/
def frameOfIssues (c : Issues) : Frame :=
  { name := "issues"
    fields :=
      [⟨"title", c.map (fun v => CellValue.str v.title)⟩,
       ⟨"author", c.map (fun v => CellValue.str v.author.login)⟩,
       ⟨"author_company", c.map (fun v => CellValue.str v.author.company)⟩,
       ⟨"repo", c.map (fun v => CellValue.str (v.repository.owner.login ++ "/" ++ v.repository.name))⟩,
       ⟨"number", c.map (fun v => CellValue.int v.number)⟩,
       ⟨"closed", c.map (fun v => CellValue.bool v.closed)⟩,
       ⟨"created_at", c.map (fun v => CellValue.time v.createdAt)⟩,
       ⟨"closed_at", c.map closedAtCell⟩] }

/-- Concrete issue used by the witnesses: the zero issue with a given
number. -/
def wIssue (n : Int) : Issue :=
  { defaultIssue with number := n }

/-- Concrete options used by the witnesses. -/
def wOpts : ListIssuesOptions :=
  ⟨"acme", "widgets", "created", none⟩

/-- Concrete time used by the witnesses (2020-08-19T00:00:00Z as seconds
since year 1). -/
def wTime : GoTime := ⟨63733046400, 0⟩

/-- First concrete page: two issue nodes, more pages follow. -/
def wPage1 : SearchPage := ⟨[some (wIssue 1), some (wIssue 2)], ⟨true, "cursorA"⟩⟩

/-- Second concrete page: one issue node, last page. -/
def wPage2 : SearchPage := ⟨[some (wIssue 3)], ⟨false, "cursorB"⟩⟩

/-- Concrete single final page. -/
def wPageSolo : SearchPage := ⟨[some (wIssue 7)], ⟨false, "cursorS"⟩⟩

/-- Concrete final page holding one node with no issue-typed payload. -/
def wPageNoIssue : SearchPage := ⟨[none], ⟨false, "cursorN"⟩⟩

/-- Concrete final page mixing a payload-free node with an issue node. -/
def wPageMixed : SearchPage := ⟨[none, some (wIssue 5)], ⟨false, "cursorM"⟩⟩

/-- Concrete issue closed at a non-zero instant. -/
def wIssueClosed : Issue :=
  { defaultIssue with number := 9, closedAt := ⟨63733046500, 0⟩, closed := true }

lemma foldl_appendRow (c : List Issue) (nm : String)
    (l1 l2 l3 l4 l5 l6 l7 l8 : List CellValue) :
    List.foldl (fun f v => Frame.appendRow f (issueRow v))
      ⟨nm, [⟨"title", l1⟩, ⟨"author", l2⟩, ⟨"author_company", l3⟩, ⟨"repo", l4⟩,
            ⟨"number", l5⟩, ⟨"closed", l6⟩, ⟨"created_at", l7⟩, ⟨"closed_at", l8⟩]⟩ c =
    ⟨nm, [⟨"title", l1 ++ c.map (fun v => CellValue.str v.title)⟩,
          ⟨"author", l2 ++ c.map (fun v => CellValue.str v.author.login)⟩,
          ⟨"author_company", l3 ++ c.map (fun v => CellValue.str v.author.company)⟩,
          ⟨"repo", l4 ++ c.map (fun v => CellValue.str (v.repository.owner.login ++ "/" ++ v.repository.name))⟩,
          ⟨"number", l5 ++ c.map (fun v => CellValue.int v.number)⟩,
          ⟨"closed", l6 ++ c.map (fun v => CellValue.bool v.closed)⟩,
          ⟨"created_at", l7 ++ c.map (fun v => CellValue.time v.createdAt)⟩,
          ⟨"closed_at", l8 ++ c.map closedAtCell⟩]⟩ := by
  induction c generalizing l1 l2 l3 l4 l5 l6 l7 l8 with
  | nil => simp
  | cons x xs ih =>
    rw [List.foldl_cons]
    show List.foldl (fun f v => Frame.appendRow f (issueRow v))
      ⟨nm, [⟨"title", l1 ++ [CellValue.str x.title]⟩,
            ⟨"author", l2 ++ [CellValue.str x.author.login]⟩,
            ⟨"author_company", l3 ++ [CellValue.str x.author.company]⟩,
            ⟨"repo", l4 ++ [CellValue.str (x.repository.owner.login ++ "/" ++ x.repository.name)]⟩,
            ⟨"number", l5 ++ [CellValue.int x.number]⟩,
            ⟨"closed", l6 ++ [CellValue.bool x.closed]⟩,
            ⟨"created_at", l7 ++ [CellValue.time x.createdAt]⟩,
            ⟨"closed_at", l8 ++ [closedAtCell x]⟩]⟩ xs = _
    rw [ih]
    simp [List.append_assoc]

lemma Frames_eq (c : Issues) : Issues.Frames c = [frameOfIssues c] := by
  have h := foldl_appendRow c "issues" [] [] [] [] [] [] [] []
  simp only [List.nil_append] at h
  simp [Issues.Frames, newIssuesFrame, frameOfIssues, h]

lemma queryLoop_nil (q : String) (c : Option String) :
    queryLoop q c [] = ([], FetchOutcome.outOfResponses) := rfl

lemma queryLoop_cons_error (q : String) (c : Option String) (e : String)
    (rest : List QueryResponse) :
    queryLoop q c (Except.error e :: rest) = ([⟨c, q⟩], FetchOutcome.err e) := rfl

lemma queryLoop_cons_false (q : String) (c : Option String) (page : SearchPage)
    (rest : List QueryResponse) (hn : page.pageInfo.hasNextPage = false) :
    queryLoop q c (Except.ok page :: rest) = ([⟨c, q⟩], FetchOutcome.ok (pageIssues page)) := by
  simp [queryLoop, hn, pageIssues]

lemma queryLoop_cons_true (q : String) (c : Option String) (page : SearchPage)
    (rest : List QueryResponse) (hn : page.pageInfo.hasNextPage = true) :
    queryLoop q c (Except.ok page :: rest) =
      (⟨c, q⟩ :: (queryLoop q (some page.pageInfo.endCursor) rest).1,
        match (queryLoop q (some page.pageInfo.endCursor) rest).2 with
        | FetchOutcome.ok more => FetchOutcome.ok (pageIssues page ++ more)
        | o => o) := by
  simp only [queryLoop, hn, if_true, pageIssues]

lemma queryLoop_all_ok : ∀ (pages : List SearchPage) (q : String) (c : Option String),
    (∀ i p, i + 1 < pages.length → pages.get? i = some p → p.pageInfo.hasNextPage = true) →
    (∀ p, pages.getLast? = some p → p.pageInfo.hasNextPage = false) →
    pages ≠ [] →
    (queryLoop q c (pages.map Except.ok)).2 =
      FetchOutcome.ok ((pages.map pageIssues).flatten) := by
  intro pages
  induction pages with
  | nil => intro q c _ _ hne; exact absurd rfl hne
  | cons p ps ih =>
    intro q c hmid hlast _
    cases ps with
    | nil =>
      have hn := hlast p (by simp)
      rw [List.map_cons, List.map_nil, queryLoop_cons_false _ _ _ _ hn]
      simp
    | cons p2 ps' =>
      have hn : p.pageInfo.hasNextPage = true := hmid 0 p (by simp) rfl
      have hrec := ih q (some p.pageInfo.endCursor)
        (fun i pp hi hp => hmid (i + 1) pp (by simpa using Nat.succ_lt_succ hi) (by simpa using hp))
        (fun pp hp => hlast pp (by simpa using hp))
        (by simp)
      rw [List.map_cons, queryLoop_cons_true _ _ _ _ hn, hrec]
      simp

lemma queryLoop_error_after : ∀ (pages : List SearchPage) (q : String) (c : Option String)
    (e : String) (rest : List QueryResponse),
    (∀ p, p ∈ pages → p.pageInfo.hasNextPage = true) →
    (queryLoop q c (pages.map Except.ok ++ Except.error e :: rest)).2 = FetchOutcome.err e ∧
      (queryLoop q c (pages.map Except.ok ++ Except.error e :: rest)).1.length =
        pages.length + 1 := by
  intro pages
  induction pages with
  | nil =>
    intro q c e rest _
    rw [List.map_nil, List.nil_append, queryLoop_cons_error]
    exact ⟨rfl, rfl⟩
  | cons p ps ih =>
    intro q c e rest hall
    have hn : p.pageInfo.hasNextPage = true := hall p (by simp)
    have hrec := ih q (some p.pageInfo.endCursor) e rest (fun pp hp => hall pp (by simp [hp]))
    rw [List.map_cons, List.cons_append, queryLoop_cons_true _ _ _ _ hn]
    rw [hrec.1]
    exact ⟨rfl, by simpa using hrec.2⟩

lemma queryLoop_stops : ∀ (resps : List QueryResponse) (q : String) (c : Option String)
    (k : Nat) (p : SearchPage),
    resps.get? k = some (Except.ok p) → p.pageInfo.hasNextPage = false →
    k < (queryLoop q c resps).1.length → (queryLoop q c resps).1.length = k + 1 := by
  intro resps
  induction resps with
  | nil => intro q c k p hk _ _; simp at hk
  | cons r rest ih =>
    intro q c k p hk hn hlt
    cases k with
    | zero =>
      simp only [List.get?] at hk
      cases hk
      rw [queryLoop_cons_false _ _ _ _ hn]
      rfl
    | succ k' =>
      simp only [List.get?] at hk
      cases r with
      | error e =>
        rw [queryLoop_cons_error] at hlt
        simp at hlt
      | ok page =>
        by_cases hpn : page.pageInfo.hasNextPage = true
        · rw [queryLoop_cons_true _ _ _ _ hpn] at hlt ⊢
          simp only [List.length_cons] at hlt ⊢
          have := ih q (some page.pageInfo.endCursor) k' p hk hn (by omega)
          omega
        · rw [queryLoop_cons_false _ _ _ _ (by simpa using hpn)] at hlt
          simp at hlt

lemma queryLoop_trace_head (resps : List QueryResponse) (q : String) (c : Option String)
    (h : resps ≠ []) : (queryLoop q c resps).1.get? 0 = some ⟨c, q⟩ := by
  cases resps with
  | nil => exact absurd rfl h
  | cons r rest =>
    cases r with
    | error e => rw [queryLoop_cons_error]; rfl
    | ok page =>
      by_cases hpn : page.pageInfo.hasNextPage = true
      · rw [queryLoop_cons_true _ _ _ _ hpn]; rfl
      · rw [queryLoop_cons_false _ _ _ _ (by simpa using hpn)]; rfl

lemma queryLoop_trace_succ : ∀ (resps : List QueryResponse) (q : String) (c : Option String)
    (k : Nat), k + 1 < (queryLoop q c resps).1.length →
    ∃ p, resps.get? k = some (Except.ok p) ∧ p.pageInfo.hasNextPage = true ∧
      (queryLoop q c resps).1.get? (k + 1) = some ⟨some p.pageInfo.endCursor, q⟩ := by
  intro resps
  induction resps with
  | nil => intro q c k h; rw [queryLoop_nil] at h; simp at h
  | cons r rest ih =>
    intro q c k h
    cases r with
    | error e =>
      rw [queryLoop_cons_error] at h
      simp at h
    | ok page =>
      by_cases hpn : page.pageInfo.hasNextPage = true
      · rw [queryLoop_cons_true _ _ _ _ hpn] at h ⊢
        cases k with
        | zero =>
          refine ⟨page, rfl, hpn, ?_⟩
          simp only [List.get?]
          exact queryLoop_trace_head rest q (some page.pageInfo.endCursor)
            (by
              intro hr
              subst hr
              rw [queryLoop_nil] at h
              simp at h)
        | succ k' =>
          obtain ⟨p, hp1, hp2, hp3⟩ := ih q (some page.pageInfo.endCursor) k'
            (by simpa using Nat.lt_of_succ_lt_succ h)
          exact ⟨p, hp1, hp2, hp3⟩
      · rw [queryLoop_cons_false _ _ _ _ (by simpa using hpn)] at h
        simp at h

lemma queryLoop_query_const : ∀ (resps : List QueryResponse) (q : String) (c : Option String),
    (queryLoop q c resps).1.map SearchVariables.query =
      List.replicate (queryLoop q c resps).1.length q := by
  intro resps
  induction resps with
  | nil => intro q c; rw [queryLoop_nil]; rfl
  | cons r rest ih =>
    intro q c
    cases r with
    | error e => rw [queryLoop_cons_error]; rfl
    | ok page =>
      by_cases hpn : page.pageInfo.hasNextPage = true
      · rw [queryLoop_cons_true _ _ _ _ hpn]
        simp only [List.map_cons, List.length_cons, List.replicate_succ]
        rw [ih]
      · rw [queryLoop_cons_false _ _ _ _ (by simpa using hpn)]; rfl

/-- C1: for a transport recording of pages whose first n-1 pages report
`hasNextPage = true` and whose last reports `false`, `GetIssuesInRange`
returns the page-then-within-page concatenation of the per-page items, so
the result length is the sum of the per-page item counts and no item is
duplicated or reordered. -/
theorem claim_C1_pagination_completeness (opts : ListIssuesOptions) (fromT toT : GoTime)
    (pages : List SearchPage) (hne : pages ≠ [])
    (hmid : ∀ i p, i + 1 < pages.length → pages.get? i = some p → p.pageInfo.hasNextPage = true)
    (hlast : ∀ p, pages.getLast? = some p → p.pageInfo.hasNextPage = false) :
    (GetIssuesInRange opts fromT toT (pages.map Except.ok)).2 =
      FetchOutcome.ok ((pages.map pageIssues).flatten) ∧
    ((pages.map pageIssues).flatten).length = (pages.map (fun p => p.nodes.length)).sum := by
  constructor
  · exact queryLoop_all_ok pages (buildSearchFilter opts fromT toT) none hmid hlast hne
  · simp [pageIssues, Function.comp_def]

/-- C1 witness: two concrete pages of sizes 2 and 1 with
`hasNextPage = true, false` yield exactly the 3 issues in page order. -/
theorem claim_C1_witness :
    ([wPage1, wPage2] ≠ ([] : List SearchPage)) ∧
    ((GetIssuesInRange wOpts wTime wTime ([wPage1, wPage2].map Except.ok)).2 =
      FetchOutcome.ok (([wPage1, wPage2].map pageIssues).flatten) ∧
    (([wPage1, wPage2].map pageIssues).flatten).length =
      ([wPage1, wPage2].map (fun p => p.nodes.length)).sum) :=
  ⟨by simp, claim_C1_pagination_completeness wOpts wTime wTime [wPage1, wPage2] (by simp)
    (by
      intro i p hi hp
      have hi0 : i = 0 := by simp at hi; omega
      subst hi0
      simp only [List.get?] at hp
      cases hp
      rfl)
    (by
      intro p hp
      simp [List.getLast?] at hp
      subst hp
      rfl)⟩

/-- C2: when the transport recording consists of any number of successful
continuing pages followed by an error on the next call, `GetIssuesInRange`
returns that error — with no issue list at all (the `err` outcome carries
none, modelling the `return nil, errors.WithStack(err)`) — and makes each
call exactly once (no retry: the trace length is the number of pages plus
the one failing call). -/
theorem claim_C2_failure_atomicity (opts : ListIssuesOptions) (fromT toT : GoTime)
    (pages : List SearchPage) (e : String) (rest : List QueryResponse)
    (hall : ∀ p, p ∈ pages → p.pageInfo.hasNextPage = true) :
    (GetIssuesInRange opts fromT toT (pages.map Except.ok ++ Except.error e :: rest)).2 =
      FetchOutcome.err e ∧
    (GetIssuesInRange opts fromT toT (pages.map Except.ok ++ Except.error e :: rest)).1.length =
      pages.length + 1 :=
  queryLoop_error_after pages (buildSearchFilter opts fromT toT) none e rest hall

/-- C2 witness: call 2 of 3 fails after a successful page of 2 issues; the
result is the error and the third recorded response is never requested. -/
theorem claim_C2_witness :
    ((GetIssuesInRange wOpts wTime wTime
        ([wPage1].map Except.ok ++ Except.error "boom" :: [Except.ok wPage2])).2 =
      FetchOutcome.err "boom" ∧
    (GetIssuesInRange wOpts wTime wTime
        ([wPage1].map Except.ok ++ Except.error "boom" :: [Except.ok wPage2])).1.length =
      [wPage1].length + 1) :=
  claim_C2_failure_atomicity wOpts wTime wTime [wPage1] "boom" [Except.ok wPage2]
    (by
      intro p hp
      simp at hp
      subst hp
      rfl)

/-- C3 counterexample: a final page holding a single node with no
issue-typed payload does not leave the accumulated list empty — the run
returns a one-element list holding the zero-valued issue, so the node
contributed a record. -/
theorem claim_C3_counterexample :
    (GetIssuesInRange wOpts wTime wTime [Except.ok wPageNoIssue]).2 =
      FetchOutcome.ok [defaultIssue] ∧
    (GetIssuesInRange wOpts wTime wTime [Except.ok wPageNoIssue]).2 ≠
      FetchOutcome.ok [] := by
  constructor
  · rfl
  · intro h
    rw [show (GetIssuesInRange wOpts wTime wTime [Except.ok wPageNoIssue]).2 =
        FetchOutcome.ok [defaultIssue] from rfl] at h
    simp at h

/-- C3 amended: a node with no issue-typed payload is not skipped — the
accumulated list gains exactly one entry per node, and a payload-free node
contributes the zero-valued issue record (the Go decoder leaves the
`... on Issue` fields at their zero values, and `is[i] = v.Issue` copies
them unconditionally). -/
theorem claim_C3_union_node_handling (opts : ListIssuesOptions) (fromT toT : GoTime)
    (page : SearchPage) (hn : page.pageInfo.hasNextPage = false) :
    (GetIssuesInRange opts fromT toT [Except.ok page]).2 =
      FetchOutcome.ok (page.nodes.map (fun n => n.getD defaultIssue)) ∧
    (page.nodes.map (fun n => n.getD defaultIssue)).length = page.nodes.length := by
  have h := queryLoop_cons_false (buildSearchFilter opts fromT toT) none page [] hn
  constructor
  · show (queryLoop (buildSearchFilter opts fromT toT) none [Except.ok page]).2 = _
    rw [h]
    rfl
  · simp

/-- C3 amended witness: a page mixing a payload-free node and an issue node
yields a two-element list: the zero issue then the real issue. -/
theorem claim_C3_witness :
    (wPageMixed.pageInfo.hasNextPage = false) ∧
    ((GetIssuesInRange wOpts wTime wTime [Except.ok wPageMixed]).2 =
      FetchOutcome.ok (wPageMixed.nodes.map (fun n => n.getD defaultIssue)) ∧
    (wPageMixed.nodes.map (fun n => n.getD defaultIssue)).length =
      wPageMixed.nodes.length) :=
  ⟨rfl, claim_C3_union_node_handling wOpts wTime wTime wPageMixed rfl⟩

/-- C4: the search filter is the whitespace-join, in fixed order, of the
issue-type marker, the single `repo:<owner>/<repository>` token, and the
single `<timeField>:<from>..<to>` token with both endpoints rendered by the
fixed RFC3339 format — with the free-text query appended verbatim as the
final token exactly when it is present. -/
theorem claim_C4_filter_composition (opts : ListIssuesOptions) (fromT toT : GoTime) :
    buildSearchFilter opts fromT toT =
      "is:issue" ++ " " ++ ("repo:" ++ opts.owner ++ "/" ++ opts.repository) ++ " " ++
        (opts.timeField ++ ":" ++ fromT.formatRFC3339 ++ ".." ++ toT.formatRFC3339) ++
        (match opts.query with
         | some q => " " ++ q
         | none => "") := by
  cases hq : opts.query with
  | none => simp [buildSearchFilter, hq, String.intercalate, String.intercalate.go]
  | some q =>
    simp [buildSearchFilter, hq, String.intercalate, String.intercalate.go,
      String.append_assoc]

/-- C5: at the first transport call the `cursor` variable is the null
sentinel, and whenever a call n+1 happens, the cursor it receives is
exactly the `endCursor` returned by call n (whose page necessarily reported
`hasNextPage = true`). -/
theorem claim_C5_cursor_propagation (opts : ListIssuesOptions) (fromT toT : GoTime)
    (resps : List QueryResponse) (hne : resps ≠ []) :
    (GetIssuesInRange opts fromT toT resps).1.get? 0 =
      some ⟨none, buildSearchFilter opts fromT toT⟩ ∧
    ∀ k, k + 1 < (GetIssuesInRange opts fromT toT resps).1.length →
      ∃ p, resps.get? k = some (Except.ok p) ∧ p.pageInfo.hasNextPage = true ∧
        (GetIssuesInRange opts fromT toT resps).1.get? (k + 1) =
          some ⟨some p.pageInfo.endCursor, buildSearchFilter opts fromT toT⟩ :=
  ⟨queryLoop_trace_head resps (buildSearchFilter opts fromT toT) none hne,
   fun k hk => queryLoop_trace_succ resps (buildSearchFilter opts fromT toT) none k hk⟩

/-- C5 witness: on the two-page recording, call 1 receives the null cursor
and call 2 receives page 1's `endCursor`. -/
theorem claim_C5_witness :
    ((GetIssuesInRange wOpts wTime wTime
        ([Except.ok wPage1, Except.ok wPage2] : List QueryResponse)).1.get? 0 =
      some ⟨none, buildSearchFilter wOpts wTime wTime⟩ ∧
    ∀ k, k + 1 < (GetIssuesInRange wOpts wTime wTime
        ([Except.ok wPage1, Except.ok wPage2] : List QueryResponse)).1.length →
      ∃ p, ([Except.ok wPage1, Except.ok wPage2] : List QueryResponse).get? k =
          some (Except.ok p) ∧
        p.pageInfo.hasNextPage = true ∧
        (GetIssuesInRange wOpts wTime wTime
            ([Except.ok wPage1, Except.ok wPage2] : List QueryResponse)).1.get? (k + 1) =
          some ⟨some p.pageInfo.endCursor, buildSearchFilter wOpts wTime wTime⟩) :=
  claim_C5_cursor_propagation wOpts wTime wTime
    ([Except.ok wPage1, Except.ok wPage2] : List QueryResponse) (by simp)

/-- C6: in the frame built from an issue list, row i's `closed_at` cell is
the absent marker exactly when the i-th issue's closed-at time is the zero
value, and is that exact timestamp otherwise; row i's `created_at` cell is
always the present creation timestamp. -/
theorem claim_C6_closed_at_normalization (c : Issues) (i : Nat) (h : i < c.length) :
    ∃ F, Issues.Frames c = [F] ∧
      F.fields.get? 7 = some ⟨"closed_at", c.map closedAtCell⟩ ∧
      F.fields.get? 6 = some ⟨"created_at", c.map (fun v => CellValue.time v.createdAt)⟩ ∧
      ((c.map closedAtCell).get? i = some (CellValue.optTime none) ↔
        (c.get ⟨i, h⟩).closedAt.isZero = true) ∧
      ((c.get ⟨i, h⟩).closedAt.isZero = false →
        (c.map closedAtCell).get? i =
          some (CellValue.optTime (some (c.get ⟨i, h⟩).closedAt))) ∧
      (c.map (fun v => CellValue.time v.createdAt)).get? i =
        some (CellValue.time (c.get ⟨i, h⟩).createdAt) := by
  have e1 : (c.map closedAtCell).get? i = some (closedAtCell (c.get ⟨i, h⟩)) := by
    rw [List.get?_eq_getElem?, List.getElem?_map, List.getElem?_eq_getElem h]
    simp [List.get_eq_getElem]
  have e2 : (c.map (fun v => CellValue.time v.createdAt)).get? i =
      some (CellValue.time (c.get ⟨i, h⟩).createdAt) := by
    rw [List.get?_eq_getElem?, List.getElem?_map, List.getElem?_eq_getElem h]
    simp [List.get_eq_getElem]
  refine ⟨frameOfIssues c, Frames_eq c, rfl, rfl, ?_, ?_, e2⟩
  · rw [e1]
    by_cases hz : (c.get ⟨i, h⟩).closedAt.isZero = true
    · simp [closedAtCell, hz]
    · simp [closedAtCell, hz]
  · intro hz
    rw [e1]
    simp only [List.get_eq_getElem] at hz
    simp [closedAtCell, hz]

/-- C6 witness: a two-issue list whose first issue was never closed and
whose second closed at a non-zero instant: row 0's cell is absent, row 1's
is that instant, and both rows carry their creation timestamps. -/
theorem claim_C6_witness :
    (0 < ([defaultIssue, wIssueClosed] : Issues).length) ∧
    (∃ F, Issues.Frames [defaultIssue, wIssueClosed] = [F] ∧
      F.fields.get? 7 =
        some ⟨"closed_at", ([defaultIssue, wIssueClosed] : Issues).map closedAtCell⟩ ∧
      F.fields.get? 6 =
        some ⟨"created_at",
          ([defaultIssue, wIssueClosed] : Issues).map (fun v => CellValue.time v.createdAt)⟩ ∧
      ((([defaultIssue, wIssueClosed] : Issues).map closedAtCell).get? 1 =
          some (CellValue.optTime none) ↔
        (([defaultIssue, wIssueClosed] : Issues).get ⟨1, by simp⟩).closedAt.isZero = true) ∧
      ((([defaultIssue, wIssueClosed] : Issues).get ⟨1, by simp⟩).closedAt.isZero = false →
        (([defaultIssue, wIssueClosed] : Issues).map closedAtCell).get? 1 =
          some (CellValue.optTime
            (some (([defaultIssue, wIssueClosed] : Issues).get ⟨1, by simp⟩).closedAt))) ∧
      (([defaultIssue, wIssueClosed] : Issues).map (fun v => CellValue.time v.createdAt)).get? 1 =
        some (CellValue.time
          (([defaultIssue, wIssueClosed] : Issues).get ⟨1, by simp⟩).createdAt)) :=
  ⟨by simp, claim_C6_closed_at_normalization [defaultIssue, wIssueClosed] 1 (by simp)⟩

/-- C7: a first response with `hasNextPage = false` ends the run after
exactly one transport call with the page's issues as the successful result,
and in general a call whose page reports `hasNextPage = false` is always
the last call of the run. -/
theorem claim_C7_single_page_termination (opts : ListIssuesOptions) (fromT toT : GoTime)
    (page : SearchPage) (rest : List QueryResponse)
    (hn : page.pageInfo.hasNextPage = false) :
    (GetIssuesInRange opts fromT toT (Except.ok page :: rest)).1.length = 1 ∧
    (GetIssuesInRange opts fromT toT (Except.ok page :: rest)).2 =
      FetchOutcome.ok (pageIssues page) ∧
    ∀ (resps : List QueryResponse) (k : Nat) (p : SearchPage),
      resps.get? k = some (Except.ok p) → p.pageInfo.hasNextPage = false →
      k < (GetIssuesInRange opts fromT toT resps).1.length →
      (GetIssuesInRange opts fromT toT resps).1.length = k + 1 := by
  have h := queryLoop_cons_false (buildSearchFilter opts fromT toT) none page rest hn
  refine ⟨?_, ?_, ?_⟩
  · show (queryLoop (buildSearchFilter opts fromT toT) none (Except.ok page :: rest)).1.length = 1
    rw [h]
    rfl
  · show (queryLoop (buildSearchFilter opts fromT toT) none (Except.ok page :: rest)).2 = _
    rw [h]
  · intro resps k p h1 h2 h3
    exact queryLoop_stops resps (buildSearchFilter opts fromT toT) none k p h1 h2 h3

/-- C7 witness: a single final page followed by a further recorded response
that is never requested — the trace has exactly one call and the run
succeeds with that page's issue. -/
theorem claim_C7_witness :
    (wPageSolo.pageInfo.hasNextPage = false) ∧
    (GetIssuesInRange wOpts wTime wTime (Except.ok wPageSolo :: [Except.ok wPage1])).1.length = 1 ∧
    (GetIssuesInRange wOpts wTime wTime (Except.ok wPageSolo :: [Except.ok wPage1])).2 =
      FetchOutcome.ok (pageIssues wPageSolo) :=
  ⟨rfl,
   (claim_C7_single_page_termination wOpts wTime wTime wPageSolo [Except.ok wPage1] rfl).1,
   (claim_C7_single_page_termination wOpts wTime wTime wPageSolo [Except.ok wPage1] rfl).2.1⟩

/-- C8: `Frames` is a pure structural reshape: the frame it builds has each
column equal to the in-order map of one per-issue projection, and row i of
the field columns is exactly the row of the i-th input issue — rows beyond
the input length do not exist, so nothing is aggregated, sorted, filtered
out, or added. -/
theorem claim_C8_row_order_preservation (c : Issues) :
    Issues.Frames c = [frameOfIssues c] ∧
    ∀ i : Nat, (frameOfIssues c).fields.map (fun fld => fld.values.get? i) =
      match c.get? i with
      | some v => (issueRow v).map some
      | none => List.replicate 8 (none : Option CellValue) := by
  refine ⟨Frames_eq c, fun i => ?_⟩
  cases hv : c.get? i with
  | some v =>
    simp only [List.get?_eq_getElem?] at hv
    simp [frameOfIssues, List.get?_eq_getElem?, List.getElem?_map, hv, issueRow, closedAtCell]
  | none =>
    simp only [List.get?_eq_getElem?] at hv
    simp [frameOfIssues, List.get?_eq_getElem?, List.getElem?_map, hv, List.replicate]

/-- C9: across all iterations of the pagination loop, the `query` entry of
the variables map passed to every transport call equals the filter string
built once before the first call — in the two-entry variables record only
the `cursor` entry ever differs between calls. -/
theorem claim_C9_query_variable_constant (opts : ListIssuesOptions) (fromT toT : GoTime)
    (resps : List QueryResponse) :
    (GetIssuesInRange opts fromT toT resps).1.map SearchVariables.query =
      List.replicate (GetIssuesInRange opts fromT toT resps).1.length
        (buildSearchFilter opts fromT toT) :=
  queryLoop_query_const resps (buildSearchFilter opts fromT toT) none

/-- C10: for every issue list, including the empty one, `Frames` returns
exactly one frame whose eight fields carry the fixed names in fixed order,
each field holding exactly one value per input issue. -/
theorem claim_C10_frame_shape (c : Issues) :
    (Issues.Frames c).length = 1 ∧
    ∃ F, Issues.Frames c = [F] ∧
      F.fields.map DataField.name =
        ["title", "author", "author_company", "repo", "number", "closed",
         "created_at", "closed_at"] ∧
      F.fields.map (fun fld => fld.values.length) = List.replicate 8 c.length := by
  refine ⟨rfl, frameOfIssues c, Frames_eq c, rfl, ?_⟩
  simp [frameOfIssues, List.replicate]
